import Mathlib

/-!
Verification of the agent-execution core of a chat-driven code-assistant
front-end.  The Python sources are embedded shallowly: pure functions become
Lean functions, stateful methods become explicit state passing, and the
asynchronous control flow of the facade is modelled as event traces.
-/

/-! ## String helpers (Python `in`, `.lower()`, `.split`) -/

/-- Python `pat in s` (substring containment) on character lists. -/
def containsSub (s pat : List Char) : Bool :=
  if pat.isPrefixOf s then true
  else
    match s with
    | [] => false
    | _ :: t => containsSub t pat

/-- Python `s.lower()` on character lists. -/
def lowerChars (s : List Char) : List Char := s.map Char.toLower

/-- Python `s.split(marker)[1]` restricted to the part after the first
occurrence of `marker` (empty when the marker is absent). -/
def splitAfterFirst (marker s : List Char) : List Char :=
  if marker.isPrefixOf s then s.drop marker.length
  else
    match s with
    | [] => []
    | _ :: t => splitAfterFirst marker t

theorem containsSub_infix_iff (s pat : List Char) :
    containsSub s pat = true ↔ pat <:+: s := by
  induction s with
  | nil =>
    rw [containsSub]
    cases pat with
    | nil => simp
    | cons c t => simp [List.isPrefixOf]
  | cons c t ih =>
    rw [containsSub]
    by_cases h : pat.isPrefixOf (c :: t) = true
    · simp only [h, if_true, true_iff]
      exact (List.isPrefixOf_iff_prefix.mp h).isInfix
    · rw [if_neg h, ih, List.infix_cons_iff]
      constructor
      · exact Or.inr
      · rintro (hp | hi)
        · exact absurd (List.isPrefixOf_iff_prefix.mpr hp) h
        · exact hi

/-! ## Tool Monitor (`src/claude/monitor.py`)

`ToolMonitor.validate_tool_call` consults the configured allow/deny lists,
validates file paths through an optional `SecurityValidator` (an external
collaborator, modelled as an abstract function), scans shell commands for
dangerous patterns, and accumulates usage statistics and violations. -/

/-- The tool-related fields of `Settings`; Python `Optional[List[str]] = None`
is modelled as the empty list (both are falsy in the guarding `if`s). -/
structure MonitorConfig where
  claude_allowed_tools : List String
  claude_disallowed_tools : List String
deriving DecidableEq

/-- The keys of a `tool_input` dict that `validate_tool_call` reads. -/
structure ToolInput where
  path : Option String := none
  file_path : Option String := none
  command : Option String := none
deriving DecidableEq

/-- A record appended to `security_violations`; every variant carries the
type tag, tool name, user id and working directory, plus per-type extras. -/
structure Violation where
  vtype : String
  tool_name : String
  user_id : Int
  working_directory : String
  extra : List (String × String) := []
deriving DecidableEq

/-- The mutable state of a `ToolMonitor`: `tool_usage` (a defaultdict of
counters) and the `security_violations` list. -/
structure MonitorState where
  tool_usage : List (String × Nat) := []
  security_violations : List Violation := []
deriving DecidableEq

/-- `self.tool_usage[tool_name] += 1` on a defaultdict(int). -/
def bumpUsage : List (String × Nat) → String → List (String × Nat)
  | [], n => [(n, 1)]
  | (k, c) :: t, n => if k = n then (k, c + 1) :: t else (k, c) :: bumpUsage t n

/-- Python truthiness of an optional string (`None` and `""` are falsy). -/
def truthy : Option String → Bool
  | none => false
  | some s => !(s == "")

/-- `SecurityValidator.validate_path(file_path, working_directory)`:
an external collaborator returning `(valid, resolved_path, error)`. -/
def PathValidator : Type := String → String → Bool × String × Option String

/-- File-operation tools checked for a path argument. -/
def fileTools : List String :=
  ["create_file", "edit_file", "read_file", "Write", "Edit", "Read"]

/-- Shell tools checked for dangerous command patterns. -/
def shellTools : List String := ["bash", "shell", "Bash"]

/-- The dangerous patterns of `ToolMonitor.validate_tool_call` (the monitor
deliberately checks fewer patterns than the SDK `SecurityHooks`). -/
def dangerous_patterns : List String := ["sudo", "rm -rf /", "chmod 777"]

/-- `ToolMonitor.validate_tool_call`.  Returns the `(ok, reason)` pair and
the updated monitor state.  The early `return` statements of the source
become the branches of the `if` chain; a file tool that passes the path
check falls through the (vacuous) shell check to the usage increment. -/
def validate_tool_call (cfg : MonitorConfig) (security_validator : Option PathValidator)
    (tool_name : String) (tool_input : ToolInput)
    (working_directory : String) (user_id : Int)
    (st : MonitorState) : (Bool × Option String) × MonitorState :=
  if cfg.claude_allowed_tools ≠ [] ∧ tool_name ∉ cfg.claude_allowed_tools then
    ((false, some ("Tool not allowed: " ++ tool_name)),
      { st with security_violations := st.security_violations ++
          [ { vtype := "disallowed_tool", tool_name := tool_name, user_id := user_id,
              working_directory := working_directory } ] })
  else if cfg.claude_disallowed_tools ≠ [] ∧ tool_name ∈ cfg.claude_disallowed_tools then
    ((false, some ("Tool explicitly disallowed: " ++ tool_name)),
      { st with security_violations := st.security_violations ++
          [ { vtype := "explicitly_disallowed_tool", tool_name := tool_name,
              user_id := user_id, working_directory := working_directory } ] })
  else if tool_name ∈ fileTools then
    -- file_path = tool_input.get("path") or tool_input.get("file_path")
    let file_path := if truthy tool_input.path then tool_input.path else tool_input.file_path
    if ¬ truthy file_path then
      ((false, some "File path required"), st)
    else
      match security_validator with
      | some validate_path =>
        let vres := validate_path (file_path.getD "") working_directory
        if ¬ vres.1 then
          ((false, vres.2.2),
            { st with security_violations := st.security_violations ++
                [ { vtype := "invalid_file_path", tool_name := tool_name,
                    user_id := user_id, working_directory := working_directory,
                    extra := [("file_path", file_path.getD ""),
                              ("error", (vres.2.2).getD "")] } ] })
        else
          ((true, none), { st with tool_usage := bumpUsage st.tool_usage tool_name })
      | none =>
        ((true, none), { st with tool_usage := bumpUsage st.tool_usage tool_name })
  else if tool_name ∈ shellTools then
    let command := tool_input.command.getD ""
    match dangerous_patterns.find?
        (fun p => containsSub (lowerChars command.toList) p.toList) with
    | some pat =>
      ((false, some ("Dangerous command pattern detected: " ++ pat)),
        { st with security_violations := st.security_violations ++
            [ { vtype := "dangerous_command", tool_name := tool_name, user_id := user_id,
                working_directory := working_directory,
                extra := [("command", command), ("pattern", pat)] } ] })
    | none =>
      ((true, none), { st with tool_usage := bumpUsage st.tool_usage tool_name })
  else
    ((true, none), { st with tool_usage := bumpUsage st.tool_usage tool_name })

/-- The `(ok, reason)` decision of `validate_tool_call` does not depend on the
accumulated monitor state (the state only receives the new records). -/
theorem validate_tool_call_fst_const (cfg : MonitorConfig)
    (v : Option PathValidator) (tool_name : String) (tool_input : ToolInput)
    (wd : String) (uid : Int) (st st' : MonitorState) :
    (validate_tool_call cfg v tool_name tool_input wd uid st).1 =
      (validate_tool_call cfg v tool_name tool_input wd uid st').1 := by
  unfold validate_tool_call
  dsimp only
  repeat' split
  all_goals rfl

/-- C3 counterexample: the claim lists `mkfs` (and `dd if=`, `> /dev/sd`, a
fork bomb, `chmod 777 /`) among the monitor's dangerous patterns, but
`ToolMonitor.validate_tool_call` allows a shell command containing `mkfs`:
with empty allow/deny lists, the call `bash "mkfs /dev/sda"` is validated
successfully even though the command contains `mkfs`. -/
theorem C3_counterexample :
    ((validate_tool_call ⟨[], []⟩ none "bash" { command := some "mkfs /dev/sda" }
        "/proj" 1 ⟨[], []⟩).1.1 = true)
    ∧ containsSub (lowerChars ("mkfs /dev/sda".toList)) ("mkfs".toList) = true := by
  exact ⟨rfl, rfl⟩

/-- C3 (amended): for a shell-tool call (`bash`, `shell`, `Bash`) under empty
allow/deny lists, `ToolMonitor.validate_tool_call` denies the call if and
only if the lower-cased command contains, as a substring, one of the three
patterns `sudo`, `rm -rf /`, `chmod 777` (note: no root-only `chmod 777 /`,
and no `mkfs`, `dd if=`, `> /dev/sd` or fork-bomb patterns — those live in
the SDK `SecurityHooks`, not in the monitor); a command built only from
composition operators is therefore not denied. -/
theorem C3_shell_denial_iff (cfg : MonitorConfig) (v : Option PathValidator)
    (tool_name : String) (tool_input : ToolInput) (wd : String) (uid : Int)
    (st : MonitorState)
    (hA : cfg.claude_allowed_tools = []) (hD : cfg.claude_disallowed_tools = [])
    (hs : tool_name ∈ shellTools) :
    (validate_tool_call cfg v tool_name tool_input wd uid st).1.1 = false ↔
      ∃ p ∈ dangerous_patterns,
        p.toList <:+: lowerChars ((tool_input.command.getD "").toList) := by
  have hnf : tool_name ∉ fileTools := by
    rcases (show tool_name = "bash" ∨ tool_name = "shell" ∨ tool_name = "Bash" by
      simpa [shellTools] using hs) with h | h | h <;> subst h <;> decide
  unfold validate_tool_call
  rw [if_neg (by simp [hA]), if_neg (by simp [hD]), if_neg hnf, if_pos hs]
  dsimp only
  cases hfind : dangerous_patterns.find?
      (fun p => containsSub (lowerChars ((tool_input.command.getD "").toList)) p.toList) with
  | some pat =>
    simp only [hfind]
    refine ⟨fun _ => ?_, fun _ => by trivial⟩
    exact ⟨pat, List.mem_of_find?_eq_some hfind,
      (containsSub_infix_iff _ _).mp (by simpa using List.find?_some hfind)⟩
  | none =>
    simp only [hfind]
    constructor
    · intro h; simp at h
    · rintro ⟨p, hp, hinf⟩
      have hnone := List.find?_eq_none.mp hfind p hp
      exact absurd ((containsSub_infix_iff _ _).mpr hinf) (by simpa using hnone)

/-- C3 witness: `bash "sudo make install"` is denied under empty
allow/deny lists, via the amended characterisation. -/
theorem C3_witness :
    (validate_tool_call ⟨[], []⟩ none "bash" { command := some "sudo make install" }
        "/proj" 1 ⟨[], []⟩).1.1 = false :=
  (C3_shell_denial_iff ⟨[], []⟩ none "bash" { command := some "sudo make install" }
      "/proj" 1 ⟨[], []⟩ rfl rfl (by decide)).mpr
    ⟨"sudo", by decide, (containsSub_infix_iff _ _).mp (by rfl)⟩

/-- C7 counterexample: the claim says `tool_usage[tool_name]` is incremented
on every invocation, denied or not; but a call denied by the allow-list
(here `Read` under allow-list `["Glob"]`) leaves `tool_usage` empty. -/
theorem C7_counterexample :
    ((validate_tool_call ⟨["Glob"], []⟩ none "Read" {} "/proj" 7 ⟨[], []⟩).1.1 = false)
    ∧ (validate_tool_call ⟨["Glob"], []⟩ none "Read" {} "/proj" 7
        ⟨[], []⟩).2.tool_usage = [] := by
  exact ⟨rfl, rfl⟩

/-- C7 (amended): `tool_usage[tool_name]` is incremented by one exactly on
allowed invocations (a denial leaves it unchanged), and on every denial
except the missing-file-path denial (reason `"File path required"`) a
violation record carrying the tool name, user id and working directory is
appended to `security_violations`; the missing-file-path denial appends
no record. -/
theorem C7_usage_and_violations (cfg : MonitorConfig) (v : Option PathValidator)
    (tool_name : String) (tool_input : ToolInput) (wd : String) (uid : Int)
    (st : MonitorState) :
    ((validate_tool_call cfg v tool_name tool_input wd uid st).1.1 = true →
      (validate_tool_call cfg v tool_name tool_input wd uid st).2.tool_usage =
          bumpUsage st.tool_usage tool_name ∧
      (validate_tool_call cfg v tool_name tool_input wd uid st).2.security_violations =
          st.security_violations)
    ∧
    ((validate_tool_call cfg v tool_name tool_input wd uid st).1.1 = false →
      (validate_tool_call cfg v tool_name tool_input wd uid st).2.tool_usage =
          st.tool_usage ∧
      ((∃ r, (validate_tool_call cfg v tool_name tool_input wd uid st).2.security_violations =
              st.security_violations ++ [r] ∧
            r.tool_name = tool_name ∧ r.user_id = uid ∧ r.working_directory = wd)
        ∨ ((validate_tool_call cfg v tool_name tool_input wd uid st).1.2 =
              some "File path required" ∧
            (validate_tool_call cfg v tool_name tool_input wd uid st).2.security_violations =
              st.security_violations))) := by
  unfold validate_tool_call
  dsimp only
  repeat' split
  all_goals
    constructor
  all_goals
    intro h
  all_goals
    first
      | exact ⟨rfl, rfl⟩
      | exact ⟨rfl, Or.inl ⟨_, rfl, rfl, rfl, rfl⟩⟩
      | exact ⟨rfl, Or.inr ⟨rfl, rfl⟩⟩
      | simp at h

/-- C7 witness: an allowed call (`Grep` with no constraints) bumps its usage
counter, and a denied call (`Bash` under allow-list `["Glob"]`) leaves
usage untouched. -/
theorem C7_witness :
    ((validate_tool_call ⟨[], []⟩ none "Grep" {} "/proj" 7 ⟨[], []⟩).2.tool_usage =
        bumpUsage [] "Grep")
    ∧ ((validate_tool_call ⟨["Glob"], []⟩ none "Bash" {} "/proj" 7
        ⟨[], []⟩).2.tool_usage = []) :=
  ⟨((C7_usage_and_violations ⟨[], []⟩ none "Grep" {} "/proj" 7 ⟨[], []⟩).1 rfl).1,
   ((C7_usage_and_violations ⟨["Glob"], []⟩ none "Bash" {} "/proj" 7 ⟨[], []⟩).2 rfl).1⟩

/-! ## Execution Facade (`src/claude/facade.py`)

`ClaudeIntegration.run_command` preempts the user's prior task, wraps the
caller's stream callback in a tool-validating handler, and post-processes
the response when validation errors were recorded.  `ClaudeResponse` and
`StreamUpdate` live in `src/claude/integration.py`, which is not part of
the sources; their shape is modelled from the spec. -/

/-- Modelled from the spec: `AgentResponse` (§3) as produced by the missing
`src/claude/integration.py` (`ClaudeResponse`): content, session id, cost,
duration, turn count, error flag and kind, tools used. -/
structure ClaudeResponse where
  content : String
  session_id : String
  cost : Rat := 0
  duration_ms : Nat := 0
  num_turns : Nat := 0
  is_error : Bool := false
  error_type : Option String := none
  tools_used : List (String × Option Int) := []
deriving DecidableEq

/-- One entry of `update.tool_calls` as read by the facade stream handler
(`tool_call["name"]`, `tool_call.get("input", {})`). -/
structure ToolCall where
  name : String
  input : ToolInput
deriving DecidableEq

/-- The critical tools for which the facade fails fast. -/
def criticalTools : List String := ["Task", "Read", "Write", "Edit"]

/-- The validation bookkeeping of `run_command`'s closure:
`tools_validated`, `validation_errors`, `blocked_tools`. -/
structure VState where
  tools_validated : Bool := true
  validation_errors : List String := []
  blocked_tools : List String := []
deriving DecidableEq

/-- The payload of a raised `ClaudeToolValidationError`. -/
structure ToolValidationErrorInfo where
  message : String
  blocked_tools : List String
  allowed_tools : List String
deriving DecidableEq

/-- Python `set.add` on the insertion-ordered model of `blocked_tools`. -/
def insertBlocked (s : List String) (n : String) : List String :=
  if n ∈ s then s else s ++ [n]

/-- The marker searched with `in` when classifying a validation error. -/
def toolNotAllowedMarker : String := "Tool not allowed:"

/-- The marker used by `error.split("Tool not allowed: ")[1]`. -/
def toolNotAllowedSplitMarker : String := "Tool not allowed: "

/-- `ClaudeIntegration._create_tool_error_message` (the message of the raised
`ClaudeToolValidationError`); the admin instructions depend on the local
filesystem (`Path(".env").exists()`) and are passed in as a parameter. -/
def create_tool_error_message (blocked_tools allowed_tools : List String)
    (admin_instructions : String) : String :=
  let tool_list := String.intercalate ", " (blocked_tools.map (fun t => "`" ++ t ++ "`"))
  let allowed_list :=
    if allowed_tools ≠ [] then
      String.intercalate ", " (allowed_tools.map (fun t => "`" ++ t ++ "`"))
    else "None"
  String.intercalate "\n"
    [ "🚫 **Tool Access Blocked**", "",
      "Claude tried to use tools that are not currently allowed:", tool_list, "",
      "**Why this happened:**",
      "• Claude needs these tools to complete your request",
      "• These tools are not in the allowed tools list",
      "• This is a security feature to control what Claude can do", "",
      "**What you can do:**",
      "• Contact the administrator to request access to these tools",
      "• Try rephrasing your request to use different approaches",
      "• Use simpler requests that don\x27t require these tools", "",
      "**Currently allowed tools:**", allowed_list, "",
      admin_instructions ]

/-- The tool-validation loop of `run_command`'s `stream_handler` over the
`tool_calls` of the streamed updates: validates each call through the
monitor, records failures, and raises `ClaudeToolValidationError` on the
first denied critical tool. -/
def stream_handler_validate (cfg : MonitorConfig) (v : Option PathValidator)
    (working_directory : String) (user_id : Int) (admin_instructions : String) :
    List ToolCall → VState → MonitorState →
      Except ToolValidationErrorInfo (VState × MonitorState)
  | [], vst, mst => .ok (vst, mst)
  | tc :: rest, vst, mst =>
    let res := validate_tool_call cfg v tc.name tc.input working_directory user_id mst
    if res.1.1 then
      stream_handler_validate cfg v working_directory user_id admin_instructions
        rest vst res.2
    else
      let err := (res.1.2).getD ""
      let vst₁ := { vst with tools_validated := false,
                             validation_errors := vst.validation_errors ++ [err] }
      let vst₂ :=
        if containsSub err.toList toolNotAllowedMarker.toList then
          { vst₁ with blocked_tools := insertBlocked vst₁.blocked_tools tc.name }
        else vst₁
      if tc.name ∈ criticalTools then
        .error { message := create_tool_error_message vst₂.blocked_tools
                    cfg.claude_allowed_tools admin_instructions,
                 blocked_tools := vst₂.blocked_tools,
                 allowed_tools := cfg.claude_allowed_tools }
      else
        stream_handler_validate cfg v working_directory user_id admin_instructions
          rest vst₂ res.2

/-- The per-update decision of the monitor, which is independent of the
accumulated monitor state (`validate_tool_call_fst_const`). -/
def toolCallAllowed (cfg : MonitorConfig) (v : Option PathValidator)
    (working_directory : String) (user_id : Int) (tc : ToolCall) : Bool :=
  (validate_tool_call cfg v tc.name tc.input working_directory user_id {}).1.1

/-- The blocked-tools rewrite of `run_command` (facade lines 254-268). -/
def blockedToolsContent (blocked_tools_list allowed : List String) : String :=
  "🚫 **Tool Access Blocked**\n\n" ++
  "Claude tried to use tools not allowed:\n" ++
  String.intercalate ", " (blocked_tools_list.map (fun t => "`" ++ t ++ "`")) ++ "\n\n" ++
  "**What you can do:**\n" ++
  "• Contact the administrator to request access to these tools\n" ++
  "• Try rephrasing your request to use different approaches\n" ++
  "• Check what tools are currently available with `/status`\n\n" ++
  "**Currently allowed tools:**\n" ++
  String.intercalate ", " (allowed.map (fun t => "`" ++ t ++ "`"))

/-- The generic rewrite of `run_command` (facade lines 270-274). -/
def genericValidationContent (validation_errors : List String) : String :=
  "🚫 **Tool Validation Failed**\n\n" ++
  "Tools failed security validation. Try different approach.\n\n" ++
  "Details: " ++ String.intercalate "; " validation_errors

/-- The post-processing of `run_command` (facade lines 236-274): when the
wrapped handler recorded validation failures, mark the response as a
`tool_validation_failed` error and rewrite its content. -/
def rewriteOnValidationFailure (cfg : MonitorConfig) (vst : VState)
    (response : ClaudeResponse) : ClaudeResponse :=
  if vst.tools_validated then response
  else
    let blocked_tools_list := vst.validation_errors.filterMap (fun e =>
      if containsSub e.toList toolNotAllowedMarker.toList then
        some (String.mk (splitAfterFirst toolNotAllowedSplitMarker.toList e.toList))
      else none)
    { response with
        is_error := true,
        error_type := some "tool_validation_failed",
        content :=
          if blocked_tools_list ≠ [] then
            blockedToolsContent blocked_tools_list cfg.claude_allowed_tools
          else genericValidationContent vst.validation_errors }

/-- A string starting with `c` keeps that head under appending. -/
theorem take_one_append (s t : String) (c : Char)
    (h : s.toList.take 1 = [c]) : (s ++ t).toList.take 1 = [c] := by
  have hst : (s ++ t).toList = s.toList ++ t.toList := by simp
  rw [hst]
  cases hs : s.toList with
  | nil => rw [hs] at h; simp at h
  | cons a l =>
    rw [hs] at h
    simpa using h

/-- The denial decision seen inside the handler agrees with
`toolCallAllowed` regardless of the threaded monitor state. -/
theorem toolCallAllowed_eq (cfg : MonitorConfig) (v : Option PathValidator)
    (wd : String) (uid : Int) (tc : ToolCall) (mst : MonitorState) :
    (validate_tool_call cfg v tc.name tc.input wd uid mst).1.1 =
      toolCallAllowed cfg v wd uid tc :=
  congrArg (fun p => p.1) (validate_tool_call_fst_const cfg v tc.name tc.input wd uid mst {})

/-- The handler completes normally iff no critical tool call is denied. -/
theorem stream_handler_ok_iff (cfg : MonitorConfig) (v : Option PathValidator)
    (wd : String) (uid : Int) (admin : String) :
    ∀ (calls : List ToolCall) (vst : VState) (mst : MonitorState),
      (∃ out, stream_handler_validate cfg v wd uid admin calls vst mst = .ok out) ↔
        ∀ tc ∈ calls, tc.name ∈ criticalTools → toolCallAllowed cfg v wd uid tc = true
  | [], vst, mst => by
      simp [stream_handler_validate]
  | tc :: rest, vst, mst => by
      rw [stream_handler_validate]
      dsimp only
      by_cases hA : (validate_tool_call cfg v tc.name tc.input wd uid mst).1.1 = true
      · rw [if_pos hA]
        have hAllowed : toolCallAllowed cfg v wd uid tc = true := by
          rw [← toolCallAllowed_eq cfg v wd uid tc mst]; exact hA
        rw [stream_handler_ok_iff cfg v wd uid admin rest vst _]
        constructor
        · intro h tc' htc' hcrit
          rcases List.mem_cons.mp htc' with h' | h'
          · subst h'; exact hAllowed
          · exact h tc' h' hcrit
        · intro h tc' htc' hcrit
          exact h tc' (List.mem_cons_of_mem _ htc') hcrit
      · rw [if_neg hA]
        have hDenied : toolCallAllowed cfg v wd uid tc = false := by
          rw [← toolCallAllowed_eq cfg v wd uid tc mst]
          exact Bool.eq_false_iff.mpr (by simpa using hA)
        by_cases hc : tc.name ∈ criticalTools
        · rw [if_pos hc]
          constructor
          · rintro ⟨out, hout⟩; exact Except.noConfusion hout
          · intro h
            exfalso
            have := h tc (List.mem_cons_self _ _) hc
            rw [this] at hDenied
            exact Bool.noConfusion hDenied
        · rw [if_neg hc]
          rw [stream_handler_ok_iff cfg v wd uid admin rest _ _]
          constructor
          · intro h tc' htc' hcrit
            rcases List.mem_cons.mp htc' with h' | h'
            · subst h'; exact absurd hcrit hc
            · exact h tc' h' hcrit
          · intro h tc' htc' hcrit
            exact h tc' (List.mem_cons_of_mem _ htc') hcrit

/-- When the handler completes, `tools_validated` is the conjunction of the
incoming flag with the per-call decisions. -/
theorem stream_handler_ok_validated (cfg : MonitorConfig) (v : Option PathValidator)
    (wd : String) (uid : Int) (admin : String) :
    ∀ (calls : List ToolCall) (vst : VState) (mst : MonitorState)
      (out : VState × MonitorState),
      stream_handler_validate cfg v wd uid admin calls vst mst = .ok out →
      out.1.tools_validated =
        (vst.tools_validated && calls.all (fun tc => toolCallAllowed cfg v wd uid tc))
  | [], vst, mst, out => by
      intro h
      rw [stream_handler_validate] at h
      cases h
      simp
  | tc :: rest, vst, mst, out => by
      intro h
      rw [stream_handler_validate] at h
      dsimp only at h
      by_cases hA : (validate_tool_call cfg v tc.name tc.input wd uid mst).1.1 = true
      · rw [if_pos hA] at h
        have hAllowed : toolCallAllowed cfg v wd uid tc = true := by
          rw [← toolCallAllowed_eq cfg v wd uid tc mst]; exact hA
        have := stream_handler_ok_validated cfg v wd uid admin rest vst _ out h
        simp [this, hAllowed]
      · rw [if_neg hA] at h
        have hDenied : toolCallAllowed cfg v wd uid tc = false := by
          rw [← toolCallAllowed_eq cfg v wd uid tc mst]
          exact Bool.eq_false_iff.mpr (by simpa using hA)
        by_cases hc : tc.name ∈ criticalTools
        · rw [if_pos hc] at h
          exact Except.noConfusion h
        · rw [if_neg hc] at h
          have hrec := stream_handler_ok_validated cfg v wd uid admin rest _ _ out h
          rw [hrec]
          split <;> simp [hDenied]

/-- C1: for every tool-call denial during a run, the facade's stream handler
raises `ClaudeToolValidationError` synchronously when the denied tool is
critical (`Task`, `Read`, `Write`, `Edit`); when only non-critical tools are
denied the handler completes, `tools_validated` is false, and the
post-processing marks the returned response `is_error = true` with
`error_type = "tool_validation_failed"` and a rewritten user-facing content
(beginning with the blocked-banner character). -/
theorem C1_denial_handling (cfg : MonitorConfig) (v : Option PathValidator)
    (wd : String) (uid : Int) (admin : String) (calls : List ToolCall)
    (mst : MonitorState) :
    ((∃ tc ∈ calls, tc.name ∈ criticalTools ∧ toolCallAllowed cfg v wd uid tc = false) →
      ∃ e, stream_handler_validate cfg v wd uid admin calls {} mst = .error e)
    ∧
    ((∀ tc ∈ calls, tc.name ∈ criticalTools → toolCallAllowed cfg v wd uid tc = true) →
      ∃ vst' mst',
        stream_handler_validate cfg v wd uid admin calls {} mst = .ok (vst', mst') ∧
        ((∃ tc ∈ calls, toolCallAllowed cfg v wd uid tc = false) →
          vst'.tools_validated = false ∧
          ∀ response : ClaudeResponse,
            (rewriteOnValidationFailure cfg vst' response).is_error = true ∧
            (rewriteOnValidationFailure cfg vst' response).error_type =
              some "tool_validation_failed" ∧
            (rewriteOnValidationFailure cfg vst' response).content.toList.take 1 =
              ['🚫'])) := by
  constructor
  · rintro ⟨tc, htc, hcrit, hden⟩
    cases hrun : stream_handler_validate cfg v wd uid admin calls {} mst with
    | error e => exact ⟨e, rfl⟩
    | ok out =>
      exfalso
      have hall := (stream_handler_ok_iff cfg v wd uid admin calls {} mst).mp ⟨out, hrun⟩
      have := hall tc htc hcrit
      rw [this] at hden
      exact Bool.noConfusion hden
  · intro hnc
    obtain ⟨out, hout⟩ := (stream_handler_ok_iff cfg v wd uid admin calls {} mst).mpr hnc
    refine ⟨out.1, out.2, by simpa using hout, ?_⟩
    rintro ⟨tc, htc, hden⟩
    have hval := stream_handler_ok_validated cfg v wd uid admin calls {} mst out hout
    have hallfalse : calls.all (fun tc => toolCallAllowed cfg v wd uid tc) = false := by
      cases hh : calls.all (fun tc => toolCallAllowed cfg v wd uid tc) with
      | false => rfl
      | true =>
        exfalso
        have := (List.all_eq_true.mp hh) tc htc
        rw [this] at hden
        exact Bool.noConfusion hden
    have htv : out.1.tools_validated = false := by
      rw [hval, hallfalse]
      simp
    refine ⟨htv, fun response => ?_⟩
    unfold rewriteOnValidationFailure
    rw [htv]
    simp only [Bool.false_eq_true, if_false]
    refine ⟨by trivial, by trivial, ?_⟩
    dsimp only
    split
    · unfold blockedToolsContent
      repeat
        first
          | rfl
          | apply take_one_append
    · unfold genericValidationContent
      repeat
        first
          | rfl
          | apply take_one_append

/-- C1 witness: with allow-list `["Glob"]`, the denied critical call `Read`
makes the handler raise, while the denied non-critical call `WebFetch`
lets the handler finish with `tools_validated = false`. -/
theorem C1_witness :
    (∃ e, stream_handler_validate ⟨["Glob"], []⟩ none "/proj" 1 ""
        [⟨"Read", { file_path := some "a.txt" }⟩] {} {} = .error e)
    ∧ (∃ vst' mst',
        stream_handler_validate ⟨["Glob"], []⟩ none "/proj" 1 ""
          [⟨"WebFetch", {}⟩] {} {} = .ok (vst', mst') ∧
        vst'.tools_validated = false) := by
  constructor
  · exact (C1_denial_handling ⟨["Glob"], []⟩ none "/proj" 1 ""
      [⟨"Read", { file_path := some "a.txt" }⟩] {}).1
      ⟨⟨"Read", { file_path := some "a.txt" }⟩, by decide, by decide, by rfl⟩
  · obtain ⟨vst', mst', hok, himp⟩ := (C1_denial_handling ⟨["Glob"], []⟩ none "/proj" 1 ""
      [⟨"WebFetch", {}⟩] {}).2 (by decide)
    exact ⟨vst', mst', hok, (himp ⟨⟨"WebFetch", {}⟩, by decide, by rfl⟩).1⟩

/-! ## Per-user preemption in `run_command` (facade lines 98-117, 214-215)

The task management of `run_command` is modelled as the event trace it
produces: cancel/await the previous task, then create the new execution
task (`asyncio.create_task`) and record it in `active_tasks[user_id]`. -/

/-- An entry of `active_tasks`: an asyncio task handle with its done flag. -/
structure TaskHandle where
  tid : Nat
  done : Bool
deriving DecidableEq

/-- The observable task-management actions of `run_command`. -/
inductive FacadeEvent where
  | cancelTask (tid : Nat)
  | awaitTask (tid : Nat)
  | createTask (tid : Nat)
  | recordActive (user : Nat) (tid : Nat)
deriving DecidableEq

/-- Dictionary lookup in `active_tasks`. -/
def lookupActive : List (Nat × TaskHandle) → Nat → Option TaskHandle
  | [], _ => none
  | (u, t) :: rest, user => if u = user then some t else lookupActive rest user

/-- The preemption prologue of `run_command`: if the user has a previous
task that is not done, cancel it and await its cancellation. -/
def preemptPriorEvents (active_tasks : List (Nat × TaskHandle)) (user_id : Nat) :
    List FacadeEvent :=
  match lookupActive active_tasks user_id with
  | some previous_task =>
    if ¬ previous_task.done then
      [.cancelTask previous_task.tid, .awaitTask previous_task.tid]
    else []
  | none => []

/-- The task-management event trace of one `run_command` call: the
preemption prologue runs first, then the new task is created and recorded. -/
def runCommandEvents (active_tasks : List (Nat × TaskHandle))
    (user_id new_tid : Nat) : List FacadeEvent :=
  preemptPriorEvents active_tasks user_id ++
    [.createTask new_tid, .recordActive user_id new_tid]

/-- C2: whenever `run_command` is called while `active_tasks[user_id]` holds
a task that is not done, the trace cancels and awaits that prior task
strictly before the new execution task is created and recorded, so at most
one task per user is ever active. -/
theorem C2_preempt_before_start (active_tasks : List (Nat × TaskHandle))
    (user_id new_tid : Nat) (t : TaskHandle)
    (hlook : lookupActive active_tasks user_id = some t)
    (hdone : t.done = false) :
    runCommandEvents active_tasks user_id new_tid =
      [.cancelTask t.tid, .awaitTask t.tid,
       .createTask new_tid, .recordActive user_id new_tid] := by
  unfold runCommandEvents preemptPriorEvents
  rw [hlook]
  simp [hdone]

/-- C2 witness: user 5 has running task 1; a new call with task 2 cancels
and awaits task 1 before creating and recording task 2. -/
theorem C2_witness :
    runCommandEvents [(5, ⟨1, false⟩)] 5 2 =
      [.cancelTask 1, .awaitTask 1, .createTask 2, .recordActive 5 2] :=
  C2_preempt_before_start [(5, ⟨1, false⟩)] 5 2 ⟨1, false⟩ rfl rfl

/-! ## Agent Process Supervisor (`src/claude/cursor_agent_integration.py`)

`CursorAgentManager._handle_process_output` consumes the parsed stream
messages, remembers the last `result` message, and after the stream ends
decides the request outcome from the result and the exit status; the live
tool-span table `tool_tracking` is cleaned up on the success path.
`execute_command` wraps the whole run in a wall-clock timeout, and
`_graceful_cancel_process` implements the three-step signal escalation. -/

/-- A live OpenTelemetry span tracked in `tool_tracking`. -/
structure SpanRec where
  ended : Bool := false
  isErrorStatus : Bool := false
  statusDesc : String := ""
deriving DecidableEq

/-- `span.set_status(ERROR, "Tool span not completed"); span.end()`. -/
def endNotCompleted (s : SpanRec) : SpanRec :=
  { s with ended := true, isErrorStatus := true,
           statusDesc := "Tool span not completed" }

/-- The fields of a `result` stream message that the supervisor reads. -/
structure ResultMsg where
  is_error : Bool := false
  result : String := ""
  session_id : String := ""
  duration_ms : Nat := 0
  subtype : Option String := none
deriving DecidableEq

/-- A parsed stream message: either the final `result` or any other typed
message (system, user, thinking, assistant, tool_call, ...). -/
inductive StreamMsg where
  | result (r : ResultMsg)
  | other (mtype : String)
deriving DecidableEq

/-- The `result = msg` assignment of the message loop: the last `result`
message wins. -/
def lastResult (msgs : List StreamMsg) : Option ResultMsg :=
  msgs.foldl (fun acc m => match m with | .result r => some r | .other _ => acc) none

/-- The error taxonomy raised by the supervisor. -/
inductive AgentError where
  | processError (msg : String)
  | timeoutError (msg : String)
  | parsingError (msg : String)
deriving DecidableEq

/-- The post-stream decision of `_handle_process_output` (lines 386-442):
an error result raises `ClaudeProcessError`; a non-zero exit raises
`ClaudeProcessError` with the stderr text; a missing result raises
`ClaudeParsingError`; otherwise the request succeeds, every span still in
`tool_tracking` is ended with status ERROR and the table is cleared.
Returns (outcome, tool_tracking afterwards, spans force-ended now). -/
def finishProcessOutput (result : Option ResultMsg) (return_code : Int)
    (tracking : List (String × String × SpanRec)) (stderrText : String) :
    Except AgentError ResultMsg
      × List (String × String × SpanRec) × List (String × String × SpanRec) :=
  match result with
  | some r =>
    if r.is_error then
      (.error (.processError ("cursor-agent error: " ++ r.result)), tracking, [])
    else if return_code ≠ 0 then
      (.error (.processError ("cursor-agent exited with code " ++ toString return_code
          ++ ": " ++ stderrText)), tracking, [])
    else
      (.ok r, [], tracking.map (fun e => (e.1, e.2.1, endNotCompleted e.2.2)))
  | none =>
    if return_code ≠ 0 then
      (.error (.processError ("cursor-agent exited with code " ++ toString return_code
          ++ ": " ++ stderrText)), tracking, [])
    else
      (.error (.parsingError "No result message received from cursor-agent"),
        tracking, [])

/-- Whether an outcome is the `ClaudeParsingError` failure. -/
def exceptIsParsingError : Except AgentError ResultMsg → Bool
  | .error (.parsingError _) => true
  | _ => false

/-- `lastResult` is `none` exactly when no `result` message occurs. -/
theorem lastResult_eq_none_iff (msgs : List StreamMsg) :
    lastResult msgs = none ↔ ∀ r, StreamMsg.result r ∉ msgs := by
  have aux : ∀ (l : List StreamMsg) (acc : Option ResultMsg),
      l.foldl (fun acc m => match m with | .result r => some r | .other _ => acc) acc
          = none
        ↔ (acc = none ∧ ∀ r, StreamMsg.result r ∉ l) := by
    intro l
    induction l with
    | nil => intro acc; simp
    | cons m rest ih =>
      intro acc
      rw [List.foldl_cons, ih]
      cases m with
      | result r =>
        simp only [List.mem_cons]
        constructor
        · rintro ⟨h, -⟩; exact Option.noConfusion h
        · rintro ⟨-, h⟩; exact absurd (Or.inl rfl) (h r)
      | other s =>
        simp only [List.mem_cons]
        constructor
        · rintro ⟨h, h'⟩
          exact ⟨h, fun r => by
            intro hmem
            rcases hmem with heq | hmem
            · exact StreamMsg.noConfusion heq
            · exact h' r hmem⟩
        · rintro ⟨h, h'⟩
          exact ⟨h, fun r hmem => h' r (Or.inr hmem)⟩
  rw [lastResult, aux]
  simp

/-- C4 counterexample: the claim ties `ParsingError` to a missing result
with non-zero exit status, but the code does the opposite: with no result
and exit code 1 the outcome is `ClaudeProcessError`, while with no result
and exit code 0 the outcome is `ClaudeParsingError`. -/
theorem C4_counterexample :
    exceptIsParsingError
        (finishProcessOutput (lastResult [.other "assistant"]) 1 [] "boom").1 = false
    ∧ exceptIsParsingError
        (finishProcessOutput (lastResult [.other "assistant"]) 0 [] "").1 = true := by
  exact ⟨rfl, rfl⟩

/-- C4 (amended): a request fails with `ClaudeParsingError` exactly when the
stream ends without a `result` message and the exit status is zero; a
missing result with non-zero exit fails with `ClaudeProcessError` instead,
and every other case succeeds or fails with a different error kind. -/
theorem C4_parsing_error_iff (msgs : List StreamMsg) (return_code : Int)
    (tracking : List (String × String × SpanRec)) (stderrText : String) :
    exceptIsParsingError
        (finishProcessOutput (lastResult msgs) return_code tracking stderrText).1 = true
      ↔ ((∀ r, StreamMsg.result r ∉ msgs) ∧ return_code = 0) := by
  cases hl : lastResult msgs with
  | none =>
    have hnone : ∀ r, StreamMsg.result r ∉ msgs := (lastResult_eq_none_iff msgs).mp hl
    simp only [finishProcessOutput]
    by_cases hrc : return_code ≠ 0
    · rw [if_pos hrc]
      simp only [exceptIsParsingError]
      constructor
      · intro h; exact Bool.noConfusion h
      · rintro ⟨-, h0⟩; exact absurd h0 hrc
    · rw [if_neg hrc]
      simp only [exceptIsParsingError]
      exact ⟨fun _ => ⟨hnone, by omega⟩, fun _ => by trivial⟩
  | some r =>
    have hmem : ¬ (∀ r', StreamMsg.result r' ∉ msgs) := by
      intro hall
      have : lastResult msgs = none := (lastResult_eq_none_iff msgs).mpr hall
      rw [hl] at this
      exact Option.noConfusion this
    simp only [finishProcessOutput]
    constructor
    · intro h
      exfalso
      by_cases he : r.is_error = true
      · rw [if_pos he] at h; exact Bool.noConfusion h
      · rw [if_neg he] at h
        by_cases hrc : return_code ≠ 0
        · rw [if_pos hrc] at h; exact Bool.noConfusion h
        · rw [if_neg hrc] at h; exact Bool.noConfusion h
    · rintro ⟨hall, -⟩; exact absurd hall hmem

/-- C4 witness: a stream with only an assistant message and exit code 0
yields `ClaudeParsingError`, via the amended characterisation. -/
theorem C4_witness :
    exceptIsParsingError
        (finishProcessOutput (lastResult [.other "assistant"]) 0 [] "").1 = true :=
  (C4_parsing_error_iff [.other "assistant"] 0 [] "").mpr
    ⟨fun r hr => by simp at hr, rfl⟩

/-- C6 counterexample: a request that ends without a result message (and
exit code 0) raises `ClaudeParsingError` before the span cleanup runs:
the span of call `c1` stays open in `tool_tracking` and no span is ended,
contradicting the claim for failing requests. -/
theorem C6_counterexample :
    ((finishProcessOutput none 0 [("c1", "read", {})] "").2.1 = [("c1", "read", {})])
    ∧ ((finishProcessOutput none 0 [("c1", "read", {})] "").2.2 = [])
    ∧ exceptIsParsingError (finishProcessOutput none 0 [("c1", "read", {})] "").1 = true := by
  exact ⟨rfl, rfl, rfl⟩

/-- C6 (amended): only when the request reaches the success path (a
non-error result and exit status 0) is every span still in `tool_tracking`
ended with status ERROR and description "Tool span not completed" and the
table cleared; when the request fails, the table keeps its entries
unchanged and no span is ended (the stale entries are only discarded by
`tool_tracking.clear()` at the start of the next `execute_command`). -/
theorem C6_span_cleanup (result : Option ResultMsg) (return_code : Int)
    (tracking : List (String × String × SpanRec)) (stderrText : String) :
    (∀ r, result = some r → r.is_error = false → return_code = 0 →
      (finishProcessOutput result return_code tracking stderrText).2.1 = [] ∧
      (finishProcessOutput result return_code tracking stderrText).2.2 =
        tracking.map (fun e => (e.1, e.2.1, endNotCompleted e.2.2)) ∧
      ∀ e ∈ (finishProcessOutput result return_code tracking stderrText).2.2,
        e.2.2.ended = true ∧ e.2.2.isErrorStatus = true ∧
        e.2.2.statusDesc = "Tool span not completed")
    ∧ ((∀ r : ResultMsg,
          (finishProcessOutput result return_code tracking stderrText).1 ≠ .ok r) →
      (finishProcessOutput result return_code tracking stderrText).2.1 = tracking ∧
      (finishProcessOutput result return_code tracking stderrText).2.2 = []) := by
  constructor
  · rintro r rfl hie hrc
    subst hrc
    simp only [finishProcessOutput, hie, Bool.false_eq_true, if_false]
    rw [if_neg (by omega : ¬ ((0 : Int) ≠ 0))]
    refine ⟨rfl, rfl, ?_⟩
    intro e he
    simp only [List.mem_map] at he
    obtain ⟨a, -, rfl⟩ := he
    exact ⟨rfl, rfl, rfl⟩
  · intro hnotok
    cases result with
    | none =>
      simp only [finishProcessOutput]
      split
      · exact ⟨rfl, rfl⟩
      · exact ⟨rfl, rfl⟩
    | some r =>
      simp only [finishProcessOutput]
      by_cases hie : r.is_error = true
      · rw [if_pos hie]; exact ⟨rfl, rfl⟩
      · rw [if_neg hie]
        by_cases hrc : return_code ≠ 0
        · rw [if_pos hrc]; exact ⟨rfl, rfl⟩
        · rw [if_neg hrc]
          exfalso
          apply hnotok r
          simp only [finishProcessOutput, if_neg hie, if_neg hrc]

/-- C6 witness: a successful request with one open span clears the table
and force-ends that span; a failing one (no result, exit 0) keeps it. -/
theorem C6_witness :
    ((finishProcessOutput (some {}) 0 [("c1", "read", {})] "").2.1 = [] ∧
      (finishProcessOutput (some {}) 0 [("c1", "read", {})] "").2.2 =
        [("c1", "read", endNotCompleted {})])
    ∧ (finishProcessOutput none 1 [("c2", "shell", {})] "x").2.1 =
        [("c2", "shell", {})] := by
  constructor
  · have h := ((C6_span_cleanup (some {}) 0 [("c1", "read", {})] "").1 {} rfl rfl rfl)
    exact ⟨h.1, h.2.1⟩
  · exact ((C6_span_cleanup none 1 [("c2", "shell", {})] "x").2
      (fun r h => Except.noConfusion h)).1

/-! ## Graceful cancellation and the timeout path -/

/-- OS signals sent to the child process. -/
inductive ProcSignal where
  | sigint
  | sigterm
  | sigkill
deriving DecidableEq

/-- How the child reacts to cancellation: whether it has already exited
when cancellation starts, and whether it exits within the 2-second wait
after SIGINT respectively SIGTERM. -/
structure ProcBehavior where
  exitedAlready : Bool
  exitsOnInt : Bool
  exitsOnTerm : Bool
deriving DecidableEq

/-- `CursorAgentManager._graceful_cancel_process`: SIGINT with a 2 s wait,
then SIGTERM with a 2 s wait, then SIGKILL; each step is skipped when the
process has already exited.  Modelled as the signal sequence sent. -/
def gracefulCancelSignals (p : ProcBehavior) : List ProcSignal :=
  if p.exitedAlready then []
  else
    [ProcSignal.sigint] ++
      (if p.exitsOnInt then []
       else
        [ProcSignal.sigterm] ++
          (if p.exitsOnTerm then [] else [ProcSignal.sigkill]))

/-- The `asyncio.TimeoutError` handler of `execute_command` (lines 184-203):
`process.kill(); await process.wait()` — a single forced kill, not the
three-step escalation. -/
def timeoutKillSignals : List ProcSignal := [ProcSignal.sigkill]

/-- The outcome of `execute_command` when the wall-clock timeout
`claude_timeout_seconds` expires: kill the process and raise
`ClaudeTimeoutError`. -/
def executeOnTimeout (timeout_seconds : Nat) : AgentError × List ProcSignal :=
  (.timeoutError ("cursor-agent timed out after " ++ toString timeout_seconds ++ "s"),
   timeoutKillSignals)

/-- C5 counterexample: on timeout the child receives SIGKILL immediately —
the first (and only) signal is not the interrupt signal the claimed
three-step escalation would send first. -/
theorem C5_counterexample :
    (executeOnTimeout 30).2 = [ProcSignal.sigkill]
    ∧ (executeOnTimeout 30).2.head? ≠ some ProcSignal.sigint
    ∧ (executeOnTimeout 30).1 = .timeoutError "cursor-agent timed out after 30s" := by
  refine ⟨rfl, ?_, rfl⟩
  intro h
  simp [executeOnTimeout, timeoutKillSignals] at h

/-- C5 (amended): when the wall-clock timeout expires, `execute_command`
fails the request with `ClaudeTimeoutError` and force-kills the child with
a single SIGKILL (no escalation); the three-step escalation — interrupt
with up to 2 s wait, then terminate with up to 2 s wait, then force kill,
each step skipped when the process has already exited — is implemented by
`_graceful_cancel_process` and used for user-initiated cancellation
(`kill_user_processes` and mid-stream cancellation), not for timeouts. -/
theorem C5_timeout_and_escalation (t : Nat) :
    (executeOnTimeout t).1 =
        .timeoutError ("cursor-agent timed out after " ++ toString t ++ "s")
    ∧ (executeOnTimeout t).2 = [ProcSignal.sigkill]
    ∧ ∀ p : ProcBehavior,
        gracefulCancelSignals p =
          if p.exitedAlready then []
          else if p.exitsOnInt then [ProcSignal.sigint]
          else if p.exitsOnTerm then [ProcSignal.sigint, ProcSignal.sigterm]
          else [ProcSignal.sigint, ProcSignal.sigterm, ProcSignal.sigkill] := by
  refine ⟨rfl, rfl, ?_⟩
  rintro ⟨ea, ei, et⟩
  cases ea <;> cases ei <;> cases et <;> rfl

/-! ## Stream buffer bound (`CursorAgentManager.__init__`,
`_handle_process_output`)

`message_buffer = deque(maxlen=self.max_message_buffer)` keeps only the
most recent messages; appends past the bound drop the oldest entry. -/

/-- `self.max_message_buffer = 1000`. -/
def max_message_buffer : Nat := 1000

/-- `self.streaming_buffer_size = 65536` (64 KiB read chunks). -/
def streaming_buffer_size : Nat := 65536

/-- Appending to a `deque(maxlen=cap)`: the oldest elements are dropped
when the bound is exceeded. -/
def dequeAppend (cap : Nat) (buf : List α) (m : α) : List α :=
  let b := buf ++ [m]
  if b.length > cap then b.drop (b.length - cap) else b

/-- The `cap` most recent elements of a list. -/
def lastN (n : Nat) (l : List α) : List α := l.drop (l.length - n)

/-- One line of the child's stdout, after `json.loads` and
`_validate_message_structure`: a decode error, a message without a
`type` key, or a valid message. -/
inductive ParsedLine where
  | invalidJson
  | noType
  | msg (m : StreamMsg)
deriving DecidableEq

/-- The messages that survive parsing and structure validation. -/
def validMsgs (lines : List ParsedLine) : List StreamMsg :=
  lines.filterMap (fun l => match l with | .msg m => some m | _ => none)

/-- The `message_buffer` after the read loop of `_handle_process_output`:
valid messages are appended to the bounded deque, other lines are
skipped (the parse error is only counted). -/
def processBuffer (lines : List ParsedLine) : List StreamMsg :=
  lines.foldl
    (fun buf l => match l with
      | .msg m => dequeAppend max_message_buffer buf m
      | _ => buf) []

theorem dequeAppend_eq_lastN (cap : Nat) (buf : List α) (m : α) :
    dequeAppend cap buf m = lastN cap (buf ++ [m]) := by
  unfold dequeAppend lastN
  dsimp only
  split
  · rfl
  · next h =>
    rw [show (buf ++ [m]).length - cap = 0 by omega, List.drop_zero]

theorem lastN_length_le (n : Nat) (l : List α) : (lastN n l).length ≤ n := by
  unfold lastN
  rw [List.length_drop]
  omega

theorem lastN_append_lastN (cap : Nat) (l l₂ : List α) :
    lastN cap (lastN cap l ++ l₂) = lastN cap (l ++ l₂) := by
  unfold lastN
  rw [List.drop_append_eq_append_drop, List.drop_append_eq_append_drop,
      List.drop_drop]
  simp only [List.length_append, List.length_drop]
  congr 1
  · congr 1
    omega
  · congr 1
    omega

theorem foldl_dequeAppend_eq_lastN (cap : Nat) :
    ∀ (xs buf : List α), buf.length ≤ cap →
      xs.foldl (dequeAppend cap) buf = lastN cap (buf ++ xs)
  | [], buf, h => by
      rw [List.foldl_nil, List.append_nil]
      unfold lastN
      rw [show buf.length - cap = 0 by omega, List.drop_zero]
  | x :: xs, buf, h => by
      rw [List.foldl_cons]
      have hlen : (dequeAppend cap buf x).length ≤ cap := by
        rw [dequeAppend_eq_lastN]
        exact lastN_length_le cap _
      rw [foldl_dequeAppend_eq_lastN cap xs _ hlen, dequeAppend_eq_lastN,
          lastN_append_lastN]
      congr 1
      simp

theorem processBuffer_eq_foldl :
    ∀ (lines : List ParsedLine) (buf : List StreamMsg),
      lines.foldl
          (fun buf l => match l with
            | .msg m => dequeAppend max_message_buffer buf m
            | _ => buf) buf
        = (validMsgs lines).foldl (dequeAppend max_message_buffer) buf
  | [], _ => rfl
  | l :: rest, buf => by
      rw [List.foldl_cons]
      cases l with
      | invalidJson =>
        rw [processBuffer_eq_foldl rest buf]
        simp [validMsgs]
      | noType =>
        rw [processBuffer_eq_foldl rest buf]
        simp [validMsgs]
      | msg m =>
        rw [processBuffer_eq_foldl rest _]
        simp [validMsgs]

/-- C8: whatever the child emits, the message buffer retained for
final-result extraction holds at most `max_message_buffer` (1000)
messages, and it is exactly the most recent valid messages — the oldest
are dropped first. -/
theorem C8_buffer_bound (lines : List ParsedLine) :
    processBuffer lines = lastN max_message_buffer (validMsgs lines)
    ∧ (processBuffer lines).length ≤ max_message_buffer := by
  have h1 : processBuffer lines
      = (validMsgs lines).foldl (dequeAppend max_message_buffer) [] :=
    processBuffer_eq_foldl lines []
  have h2 := foldl_dequeAppend_eq_lastN max_message_buffer (validMsgs lines) []
    (by simp)
  rw [h1, h2, List.nil_append]
  exact ⟨rfl, lastN_length_le _ _⟩

/-! ## Project command callbacks (`src/bot/features/project_commands.py`)

`ProjectCommand.get_callback_data` prepends `"pcmd:"` to the command name;
`parse_callback_data` strips that marker.  Strings are modelled as
character lists. -/

/-- `PROJECT_COMMAND_PREFIX = "pcmd:"` as a character list. -/
def projectCommandMarker : List Char := "pcmd:".toList

/-- `ProjectCommand.get_callback_data`. -/
def get_callback_data (name : List Char) : List Char :=
  projectCommandMarker ++ name

/-- `parse_callback_data`: `None` unless the data starts with the marker,
else the remainder after the marker. -/
def parse_callback_data (callback_data : List Char) : Option (List Char) :=
  if projectCommandMarker.isPrefixOf callback_data then
    some (callback_data.drop projectCommandMarker.length)
  else none

/-- C9: for every ASCII command name without a colon, parsing the callback
data built for that command returns the same name. -/
theorem C9_callback_roundtrip (name : List Char)
    (_hascii : ∀ c ∈ name, c.toNat < 128) (_hcolon : (':' : Char) ∉ name) :
    parse_callback_data (get_callback_data name) = some name := by
  unfold parse_callback_data get_callback_data
  rw [if_pos (List.isPrefixOf_iff_prefix.mpr (List.prefix_append _ _))]
  rw [List.drop_left]

/-- C9 witness: the command name `deploy`. -/
theorem C9_witness :
    parse_callback_data (get_callback_data "deploy".toList) = some "deploy".toList :=
  C9_callback_roundtrip "deploy".toList (by decide) (by decide)

/-! ## Safe serialization (`src/utils/serialization.py`)

`_to_safe_obj` walks an arbitrary Python object graph — which may contain
cycles — carrying a shared `_visited` set of container object ids; a
container reached a second time is rendered as a cycle marker, long lists
are truncated, and `safe_serialize` post-processes the result into the
scalar/list shapes accepted by OpenTelemetry.  The object graph is
embedded as a heap: object ids mapped to nodes whose children are ids.
The recursion is indexed by fuel; the totality theorem shows that a fuel
of one more than the number of heap objects always suffices. -/

/-- A hashable dict key as classified by `safe_key`. -/
inductive PyKey where
  | strK (s : String)
  | intK (n : Int)
  | boolK (b : Bool)
  | noneK
  | otherK (reprStr : String)
deriving DecidableEq

/-- `safe_key`: `str(k)` for scalars, decode for bytes and `repr` for the
rest (both folded into `otherK`'s rendered string). -/
def safe_key : PyKey → String
  | .strK s => s
  | .intK n => toString n
  | .boolK b => if b then "True" else "False"
  | .noneK => "None"
  | .otherK r => r

/-- A node of the Python object heap.  `listC` covers `list`, `tuple` and
`set` (all treated alike by `_to_safe_obj`); `otherLeaf` covers objects
with `to_json`, `bytes`, `Decimal`, `datetime` and arbitrary objects,
whose rendering to a string is not recursive. -/
inductive PyNode where
  | noneV
  | boolV (b : Bool)
  | intV (n : Int)
  | strV (s : String)
  | listC (elems : List Nat)
  | dictC (entries : List (PyKey × Nat))
  | otherLeaf (reprStr : String)
deriving DecidableEq

/-- The OpenTelemetry-safe value produced by `_to_safe_obj`. -/
inductive SafeObj where
  | nullV
  | boolV (b : Bool)
  | intV (n : Int)
  | strV (s : String)
  | listV (elems : List SafeObj)
  | dictV (entries : List (String × SafeObj))

/-- `isinstance(obj, (list, tuple, set, dict))` — only containers are added
to `_visited`. -/
def isContainer : PyNode → Bool
  | .listC _ => true
  | .dictC _ => true
  | _ => false

/-- Object lookup by id. -/
def lookupHeap (heap : List (Nat × PyNode)) (objId : Nat) : Option PyNode :=
  (heap.find? (fun e => e.1 == objId)).map (fun e => e.2)

mutual

/-- `_to_safe_obj(obj, _visited)`: the cycle check precedes everything;
containers add their id to the shared visited set before their children
are traversed; list-like results longer than 100 are truncated to the
first 100 plus a count marker.  `none` means the fuel ran out (the
totality theorem shows this never happens with enough fuel). -/
def toSafeObj (heap : List (Nat × PyNode)) :
    Nat → Nat → List Nat → Option (SafeObj × List Nat)
  | 0, _, _ => none
  | fuel + 1, objId, visited =>
    if objId ∈ visited then
      some (.strV ("<Cycle ref id=" ++ toString objId ++ ">"), visited)
    else
      match lookupHeap heap objId with
      | none => none
      | some node =>
        let visited' := if isContainer node then objId :: visited else visited
        match node with
        | .noneV => some (.nullV, visited')
        | .boolV b => some (.boolV b, visited')
        | .intV n => some (.intV n, visited')
        | .strV s => some (.strV s, visited')
        | .otherLeaf r => some (.strV r, visited')
        | .listC elems =>
          match toSafeList heap fuel elems visited' with
          | none => none
          | some (res, visited'') =>
            if res.length > 100 then
              some (.listV (res.take 100 ++
                [.strV ("... " ++ toString (res.length - 100) ++ " more")]),
                visited'')
            else
              some (.listV res, visited'')
        | .dictC entries =>
          match toSafeDict heap fuel entries visited' with
          | none => none
          | some (res, visited'') => some (.dictV res, visited'')

/-- The elementwise traversal of a list/tuple/set, threading `_visited`. -/
def toSafeList (heap : List (Nat × PyNode)) :
    Nat → List Nat → List Nat → Option (List SafeObj × List Nat)
  | _, [], visited => some ([], visited)
  | fuel, e :: rest, visited =>
    match toSafeObj heap fuel e visited with
    | none => none
    | some (o, v') =>
      match toSafeList heap fuel rest v' with
      | none => none
      | some (os, v'') => some (o :: os, v'')

/-- The entrywise traversal of a dict: keys through `safe_key`, values
recursively, threading `_visited`. -/
def toSafeDict (heap : List (Nat × PyNode)) :
    Nat → List (PyKey × Nat) → List Nat → Option (List (String × SafeObj) × List Nat)
  | _, [], visited => some ([], visited)
  | fuel, (k, e) :: rest, visited =>
    match toSafeObj heap fuel e visited with
    | none => none
    | some (o, v') =>
      match toSafeDict heap fuel rest v' with
      | none => none
      | some (os, v'') => some ((safe_key k, o) :: os, v'')

end

/-- A minimal model of `json.dumps` string escaping. -/
def jsonEscape (s : String) : String :=
  String.join (s.toList.map (fun c =>
    if c = '"' then "\\\""
    else if c = '\\' then "\\\\"
    else if c = '\n' then "\\n"
    else String.singleton c))

/-- A model of `json.dumps` over OpenTelemetry-safe values (compact with
the default `", "` / `": "` separators). -/
def jsonDumps : SafeObj → String
  | .nullV => "null"
  | .boolV b => if b then "true" else "false"
  | .intV n => toString n
  | .strV s => "\"" ++ jsonEscape s ++ "\""
  | .listV es =>
    "[" ++ String.intercalate ", " (es.attach.map (fun e => jsonDumps e.1)) ++ "]"
  | .dictV es =>
    "\x7b" ++ String.intercalate ", "
      (es.attach.map (fun p =>
        "\"" ++ jsonEscape p.1.1 ++ "\": " ++ jsonDumps p.1.2)) ++ "\x7d"
decreasing_by
  · simp_wf
    have := List.sizeOf_lt_of_mem e.2
    omega
  · simp_wf
    rcases p with ⟨⟨k, v⟩, hp⟩
    have := List.sizeOf_lt_of_mem hp
    simp at this ⊢
    omega

/-- An element of `safe_serialize`'s output list after `_to_simple`:
containers become JSON strings, scalars pass through. -/
inductive SimpleElem where
  | strE (s : String)
  | intE (n : Int)
  | boolE (b : Bool)
  | noneE
deriving DecidableEq

/-- `_to_simple(o)`. -/
def toSimple : SafeObj → SimpleElem
  | .dictV es => .strE (jsonDumps (.dictV es))
  | .listV es => .strE (jsonDumps (.listV es))
  | .strV s => .strE s
  | .intV n => .intE n
  | .boolV b => .boolE b
  | .nullV => .noneE

/-- What `safe_serialize` actually returns: a string, a list — or a scalar
passed through unchanged. -/
inductive SerializedResult where
  | strOut (s : String)
  | intOut (n : Int)
  | boolOut (b : Bool)
  | noneOut
  | listOut (elems : List SimpleElem)
deriving DecidableEq

/-- `safe_serialize(obj)`: run `_to_safe_obj`, map `None` to `"null"`,
map lists elementwise through `_to_simple`, and apply `_to_simple` to
everything else. -/
def safe_serialize (heap : List (Nat × PyNode)) (fuel : Nat) (objId : Nat) :
    Option SerializedResult :=
  match toSafeObj heap fuel objId [] with
  | none => none
  | some (res, _) =>
    match res with
    | .nullV => some (.strOut "null")
    | .listV es => some (.listOut (es.map toSimple))
    | other =>
      some (match toSimple other with
        | .strE s => .strOut s
        | .intE n => .intOut n
        | .boolE b => .boolOut b
        | .noneE => .noneOut)

/-- Whether the returned value matches the claimed `str | list` type. -/
def isStrOrList : SerializedResult → Bool
  | .strOut _ => true
  | .listOut _ => true
  | _ => false

/-- C10 counterexample: `safe_serialize(5)` returns the integer `5`
unchanged — neither a string nor a list, contrary to the claimed return
type (the function's own docstring allows scalar outputs). -/
theorem C10_counterexample :
    safe_serialize [(0, .intV 5)] 2 0 = some (.intOut 5)
    ∧ (safe_serialize [(0, .intV 5)] 2 0).map isStrOrList = some false := by
  constructor
  · simp [safe_serialize, toSafeObj, lookupHeap, isContainer, toSimple]
  · simp [safe_serialize, toSafeObj, lookupHeap, isContainer, toSimple, isStrOrList]

/-- The object ids present in the heap. -/
def heapIds (heap : List (Nat × PyNode)) : List Nat := heap.map (fun e => e.1)

/-- The object ids a node refers to. -/
def childRefs : PyNode → List Nat
  | .listC elems => elems
  | .dictC entries => entries.map (fun p => p.2)
  | _ => []

/-- A well-formed heap: every reference resolves (Python objects always
exist while reachable). -/
def heapWF (heap : List (Nat × PyNode)) : Prop :=
  ∀ p ∈ heap, ∀ c ∈ childRefs p.2, c ∈ heapIds heap

/-- How many heap objects are not yet in the visited set — the measure
that shrinks every time a container is entered. -/
def unvisitedCount (heap : List (Nat × PyNode)) (visited : List Nat) : Nat :=
  ((heapIds heap).filter (fun i => decide (i ∉ visited))).length

theorem lookupHeap_isSome_of_mem (heap : List (Nat × PyNode)) (objId : Nat)
    (h : objId ∈ heapIds heap) : ∃ node, lookupHeap heap objId = some node := by
  unfold heapIds at h
  obtain ⟨e, he, heq⟩ := List.mem_map.mp h
  have hs : (heap.find? (fun e => e.1 == objId)).isSome := by
    rw [List.find?_isSome]
    exact ⟨e, he, by simp [heq]⟩
  obtain ⟨val, hval⟩ := Option.isSome_iff_exists.mp hs
  exact ⟨val.2, by unfold lookupHeap; rw [hval]; rfl⟩

theorem lookupHeap_mem (heap : List (Nat × PyNode)) (objId : Nat) (node : PyNode)
    (h : lookupHeap heap objId = some node) :
    ∃ e ∈ heap, e.1 = objId ∧ e.2 = node := by
  unfold lookupHeap at h
  cases hf : heap.find? (fun e => e.1 == objId) with
  | none => rw [hf] at h; exact Option.noConfusion h
  | some e =>
    rw [hf] at h
    simp at h
    refine ⟨e, List.mem_of_find?_eq_some hf, ?_, h⟩
    have hp := List.find?_some hf
    simpa using hp

theorem filter_unvisited_le (l v w : List Nat) (hsub : ∀ x ∈ v, x ∈ w) :
    (l.filter (fun i => decide (i ∉ w))).length ≤
      (l.filter (fun i => decide (i ∉ v))).length := by
  induction l with
  | nil => simp
  | cons a l ih =>
    simp only [List.filter_cons]
    by_cases hw : a ∈ w
    · rw [if_neg (by simp [hw])]
      by_cases hv : a ∈ v
      · rw [if_neg (by simp [hv])]
        exact ih
      · rw [if_pos (by simp [hv])]
        simp only [List.length_cons]
        exact Nat.le_succ_of_le ih
    · have hv : a ∉ v := fun hva => hw (hsub a hva)
      rw [if_pos (by simp [hw]), if_pos (by simp [hv])]
      simp only [List.length_cons]
      exact Nat.succ_le_succ ih

theorem filter_unvisited_lt (l v : List Nat) (a : Nat)
    (ha : a ∈ l) (hav : a ∉ v) :
    (l.filter (fun i => decide (i ∉ a :: v))).length <
      (l.filter (fun i => decide (i ∉ v))).length := by
  induction l with
  | nil => cases ha
  | cons b l ih =>
    simp only [List.filter_cons]
    rcases List.mem_cons.mp ha with rfl | hb
    · rw [if_neg (by simp), if_pos (by simp [hav])]
      simp only [List.length_cons]
      exact Nat.lt_succ_of_le
        (filter_unvisited_le l v (a :: v) (fun x hx => List.mem_cons_of_mem _ hx))
    · by_cases hbav : b ∈ a :: v
      · rw [if_neg (by simp [hbav])]
        by_cases hbv : b ∈ v
        · rw [if_neg (by simp [hbv])]
          exact ih hb
        · rw [if_pos (by simp [hbv])]
          simp only [List.length_cons]
          exact Nat.lt_succ_of_le (le_of_lt (ih hb))
      · have hbv : b ∉ v := fun hmm => hbav (List.mem_cons_of_mem _ hmm)
        rw [if_pos (by simp [hbav]), if_pos (by simp [hbv])]
        simp only [List.length_cons]
        exact Nat.succ_lt_succ (ih hb)

theorem unvisitedCount_mono (heap : List (Nat × PyNode)) {v w : List Nat}
    (hsub : ∀ x ∈ v, x ∈ w) :
    unvisitedCount heap w ≤ unvisitedCount heap v :=
  filter_unvisited_le _ v w hsub

theorem unvisitedCount_lt (heap : List (Nat × PyNode)) (v : List Nat) (a : Nat)
    (ha : a ∈ heapIds heap) (hav : a ∉ v) :
    unvisitedCount heap (a :: v) < unvisitedCount heap v :=
  filter_unvisited_lt _ v a ha hav

/-- Every list in the result respects the truncation bound: at most the
first 100 elements plus the count marker. -/
inductive ListsBounded : SafeObj → Prop where
  | nullV : ListsBounded .nullV
  | boolV (b : Bool) : ListsBounded (.boolV b)
  | intV (n : Int) : ListsBounded (.intV n)
  | strV (s : String) : ListsBounded (.strV s)
  | listV (es : List SafeObj) (hlen : es.length ≤ 101)
      (h : ∀ e ∈ es, ListsBounded e) : ListsBounded (.listV es)
  | dictV (es : List (String × SafeObj))
      (h : ∀ p ∈ es, ListsBounded p.2) : ListsBounded (.dictV es)

/-- Totality of `_to_safe_obj` on well-formed heaps: with fuel exceeding
the number of not-yet-visited heap objects, the traversal always returns,
the visited set only grows, and every list in the result is truncated. -/
theorem toSafeObj_total (heap : List (Nat × PyNode)) (hwf : heapWF heap) :
    ∀ (fuel : Nat) (visited : List Nat) (objId : Nat),
      objId ∈ heapIds heap →
      unvisitedCount heap visited < fuel →
      ∃ o v', toSafeObj heap fuel objId visited = some (o, v')
        ∧ (∀ x ∈ visited, x ∈ v') ∧ ListsBounded o := by
  intro fuel
  induction fuel with
  | zero =>
    intro visited objId _ hc
    omega
  | succ fuel ih =>
    have hlist : ∀ (elems : List Nat) (v : List Nat),
        (∀ e ∈ elems, e ∈ heapIds heap) →
        unvisitedCount heap v < fuel →
        ∃ os v', toSafeList heap fuel elems v = some (os, v')
          ∧ (∀ x ∈ v, x ∈ v') ∧ ∀ o ∈ os, ListsBounded o := by
      intro elems
      induction elems with
      | nil =>
        intro v _ _
        refine ⟨[], v, ?_, fun x hx => hx, by simp⟩
        rw [toSafeList]
      | cons e rest ihe =>
        intro v hmem hcnt
        obtain ⟨o, v₁, ho, hsub₁, hbo⟩ :=
          ih v e (hmem e (List.mem_cons_self _ _)) hcnt
        have hcnt₁ : unvisitedCount heap v₁ < fuel :=
          lt_of_le_of_lt (unvisitedCount_mono heap hsub₁) hcnt
        obtain ⟨os, v₂, hos, hsub₂, hbos⟩ :=
          ihe v₁ (fun e' he' => hmem e' (List.mem_cons_of_mem _ he')) hcnt₁
        refine ⟨o :: os, v₂, ?_, fun x hx => hsub₂ x (hsub₁ x hx), ?_⟩
        · rw [toSafeList, ho]
          dsimp only
          rw [hos]
        · intro o' ho'
          rcases List.mem_cons.mp ho' with rfl | hrest
          · exact hbo
          · exact hbos o' hrest
    have hdict : ∀ (entries : List (PyKey × Nat)) (v : List Nat),
        (∀ p ∈ entries, p.2 ∈ heapIds heap) →
        unvisitedCount heap v < fuel →
        ∃ os v', toSafeDict heap fuel entries v = some (os, v')
          ∧ (∀ x ∈ v, x ∈ v') ∧ ∀ p ∈ os, ListsBounded p.2 := by
      intro entries
      induction entries with
      | nil =>
        intro v _ _
        refine ⟨[], v, ?_, fun x hx => hx, by simp⟩
        rw [toSafeDict]
      | cons p rest ihe =>
        intro v hmem hcnt
        obtain ⟨k, e⟩ := p
        obtain ⟨o, v₁, ho, hsub₁, hbo⟩ :=
          ih v e (hmem (k, e) (List.mem_cons_self _ _)) hcnt
        have hcnt₁ : unvisitedCount heap v₁ < fuel :=
          lt_of_le_of_lt (unvisitedCount_mono heap hsub₁) hcnt
        obtain ⟨os, v₂, hos, hsub₂, hbos⟩ :=
          ihe v₁ (fun p' hp' => hmem p' (List.mem_cons_of_mem _ hp')) hcnt₁
        refine ⟨(safe_key k, o) :: os, v₂, ?_,
          fun x hx => hsub₂ x (hsub₁ x hx), ?_⟩
        · rw [toSafeDict, ho]
          dsimp only
          rw [hos]
        · intro p' hp'
          rcases List.mem_cons.mp hp' with rfl | hrest
          · exact hbo
          · exact hbos p' hrest
    intro visited objId hmem hcnt
    rw [toSafeObj]
    by_cases hv : objId ∈ visited
    · rw [if_pos hv]
      exact ⟨_, visited, rfl, fun x hx => hx, ListsBounded.strV _⟩
    · rw [if_neg hv]
      obtain ⟨node, hnode⟩ := lookupHeap_isSome_of_mem heap objId hmem
      rw [hnode]
      obtain ⟨entry, hent, hent1, hent2⟩ := lookupHeap_mem heap objId node hnode
      have hchild : ∀ c ∈ childRefs node, c ∈ heapIds heap := by
        intro c hc
        exact hwf entry hent c (by rw [hent2]; exact hc)
      have hvcnt : unvisitedCount heap (objId :: visited) < fuel := by
        have hstrict := unvisitedCount_lt heap visited objId hmem hv
        omega
      cases node with
      | noneV =>
        exact ⟨_, visited, rfl, fun x hx => hx, ListsBounded.nullV⟩
      | boolV b =>
        exact ⟨_, visited, rfl, fun x hx => hx, ListsBounded.boolV b⟩
      | intV n =>
        exact ⟨_, visited, rfl, fun x hx => hx, ListsBounded.intV n⟩
      | strV s =>
        exact ⟨_, visited, rfl, fun x hx => hx, ListsBounded.strV s⟩
      | otherLeaf r =>
        exact ⟨_, visited, rfl, fun x hx => hx, ListsBounded.strV r⟩
      | listC elems =>
        dsimp only
        have hic : (if isContainer (PyNode.listC elems) = true then objId :: visited
            else visited) = objId :: visited := if_pos rfl
        obtain ⟨os, v', hos, hsub, hbos⟩ :=
          hlist elems (objId :: visited) hchild hvcnt
        rw [hic, hos]
        dsimp only
        by_cases hlen : os.length > 100
        · rw [if_pos hlen]
          refine ⟨_, v', rfl,
            fun x hx => hsub x (List.mem_cons_of_mem _ hx), ?_⟩
          apply ListsBounded.listV
          · rw [List.length_append, List.length_take]
            simp only [List.length_singleton]
            omega
          · intro o ho
            rcases List.mem_append.mp ho with hmem' | hmem'
            · exact hbos o (List.mem_of_mem_take hmem')
            · rcases List.mem_singleton.mp hmem' with rfl
              exact ListsBounded.strV _
        · rw [if_neg hlen]
          exact ⟨_, v', rfl, fun x hx => hsub x (List.mem_cons_of_mem _ hx),
            ListsBounded.listV _ (by omega) hbos⟩
      | dictC entries =>
        dsimp only
        have hic : (if isContainer (PyNode.dictC entries) = true then objId :: visited
            else visited) = objId :: visited := if_pos rfl
        obtain ⟨os, v', hos, hsub, hbos⟩ :=
          hdict entries (objId :: visited)
            (fun p hp => hchild p.2 (List.mem_map_of_mem _ hp)) hvcnt
        rw [hic, hos]
        exact ⟨_, v', rfl, fun x hx => hsub x (List.mem_cons_of_mem _ hx),
          ListsBounded.dictV _ hbos⟩

/-- C10 (amended): `safe_serialize` is total — for every well-formed object
heap, including cyclic and self-referential container structures, a fuel
of more than the heap size makes it return without failing; the result is
a string, a list, or a scalar passed through unchanged, and a list result
never exceeds 101 entries (the first 100 plus the truncation marker).
Containers reached a second time render as `<Cycle ref id=...>` markers
(exercised by the witness on a self-referential list). -/
theorem C10_safe_serialize_total (heap : List (Nat × PyNode)) (objId fuel : Nat)
    (hwf : heapWF heap) (hmem : objId ∈ heapIds heap)
    (hfuel : unvisitedCount heap [] < fuel) :
    ∃ out, safe_serialize heap fuel objId = some out
      ∧ ∀ es, out = .listOut es → es.length ≤ 101 := by
  obtain ⟨o, v', ho, -, hb⟩ := toSafeObj_total heap hwf fuel [] objId hmem hfuel
  unfold safe_serialize
  rw [ho]
  cases o with
  | nullV => exact ⟨_, rfl, fun es h => SerializedResult.noConfusion h⟩
  | boolV b => exact ⟨_, rfl, fun es h => SerializedResult.noConfusion h⟩
  | intV n => exact ⟨_, rfl, fun es h => SerializedResult.noConfusion h⟩
  | strV s => exact ⟨_, rfl, fun es h => SerializedResult.noConfusion h⟩
  | dictV es => exact ⟨_, rfl, fun es' h => SerializedResult.noConfusion h⟩
  | listV es =>
    refine ⟨.listOut (es.map toSimple), rfl, fun es' h => ?_⟩
    cases hb with
    | listV _ hlen _ =>
      cases h
      simpa using hlen

/-- C10 witness: the self-referential heap `x = [x, 3]` is well-formed;
`safe_serialize` terminates on it, the second visit of the list renders
as a cycle marker, and the scalar element passes through. -/
theorem C10_witness :
    heapWF [(0, PyNode.listC [0, 1]), (1, PyNode.intV 3)]
    ∧ unvisitedCount [(0, PyNode.listC [0, 1]), (1, PyNode.intV 3)] [] < 3
    ∧ (∃ out,
        safe_serialize [(0, PyNode.listC [0, 1]), (1, PyNode.intV 3)] 3 0 = some out
        ∧ ∀ es, out = .listOut es → es.length ≤ 101)
    ∧ safe_serialize [(0, PyNode.listC [0, 1]), (1, PyNode.intV 3)] 3 0 =
        some (.listOut [.strE "<Cycle ref id=0>", .intE 3]) := by
  refine ⟨by unfold heapWF; decide, by decide, ?_, ?_⟩
  · exact C10_safe_serialize_total [(0, PyNode.listC [0, 1]), (1, PyNode.intV 3)] 0 3
      (by unfold heapWF; decide) (by decide) (by decide)
  · simp [safe_serialize, toSafeObj, toSafeList, lookupHeap, isContainer, toSimple]
    decide
